import Mathlib

/-!
Verification of the tejolote provenance-attestation engine.

The Go sources are shallowly embedded: Go strings are lists of characters,
Go maps are association lists whose keys are distinct (writes replace the
first matching entry), time instants are integers with 0 as the Go zero
value, and fallible operations return `Except`.  Each definition is named
after, and translated from, the Go function it embeds; the file then proves
or refutes the specification claims about those functions.
-/

namespace Tejolote

/-- Go strings are modelled as lists of characters. -/
abbrev GoStr := List Char

/-- Read a key from a Go map modelled as an association list (the first
matching entry is the map's value for that key). -/
def mapGet {β : Type} : List (GoStr × β) → GoStr → Option β
  | [], _ => none
  | (k', v) :: rest, k => if k' = k then some v else mapGet rest k

/-- Write a key into a Go map modelled as an association list: replace the
first entry carrying the key, or append a fresh entry. -/
def mapSet {β : Type} : List (GoStr × β) → GoStr → β → List (GoStr × β)
  | [], k, v => [(k, v)]
  | (k', v') :: rest, k, v =>
      if k' = k then (k, v) :: rest else (k', v') :: mapSet rest k v

/-- Invariant of every Go map: its keys are pairwise distinct. -/
def keysNodup {β : Type} (m : List (GoStr × β)) : Prop :=
  (m.map Prod.fst).Nodup

instance {β : Type} (m : List (GoStr × β)) : Decidable (keysNodup m) :=
  List.nodupDecidable _

/-- pkg/run/run.go: `Artifact` abstracts a file, keeping its path, its
checksums (algorithm to hex value) and its modification time. -/
structure Artifact where
  path : GoStr
  checksum : List (GoStr × GoStr)
  time : Int
deriving DecidableEq

/-- pkg/store/snapshot `Snapshot`: a map from paths to artifacts. -/
abbrev Snapshot := List (GoStr × Artifact)

/-- Map read on a snapshot, `(*snap)[path]` with its ok flag. -/
def Snapshot.get (snap : Snapshot) (p : GoStr) : Option Artifact :=
  mapGet snap p

/-- Inner loop of `Snapshot.Delta`: ranges over the checksums recorded in the
pre artifact, looks each algorithm up in the post artifact and reports true
when a shared algorithm carries a differing value. -/
def checksumChanged (preC postC : List (GoStr × GoStr)) : Bool :=
  preC.any fun kv =>
    match mapGet postC kv.1 with
    | some fv => fv != kv.2
    | none => false

/-- `Snapshot.Delta` (store/snapshot): the directed delta.  The Go loop
ranges over `post` and appends an artifact when its path is unknown in the
pre snapshot, when its time changed, or when a shared checksum algorithm
disagrees (the `break` makes at most one append per artifact, so the loop is
a filter over `post` in iteration order). -/
def Snapshot.Delta (snap post : Snapshot) : List Artifact :=
  (post.filter fun pf =>
    match Snapshot.get snap pf.1 with
    | none => true
    | some a => a.time != pf.2.time || checksumChanged a.checksum pf.2.checksum).map
    Prod.snd

theorem mem_of_mapGet_eq_some {β : Type} {m : List (GoStr × β)} {k : GoStr}
    {v : β} (h : mapGet m k = some v) : (k, v) ∈ m := by
  induction m with
  | nil => simp [mapGet] at h
  | cons hd tl ih =>
    obtain ⟨k', v'⟩ := hd
    rw [mapGet] at h
    by_cases hk : k' = k
    · rw [if_pos hk] at h
      cases h
      subst hk
      exact List.mem_cons_self _ _
    · rw [if_neg hk] at h
      exact List.mem_cons_of_mem _ (ih h)

theorem mapGet_eq_some_of_mem {β : Type} {m : List (GoStr × β)} {k : GoStr}
    {v : β} (hn : keysNodup m) (h : (k, v) ∈ m) : mapGet m k = some v := by
  induction m with
  | nil => simp at h
  | cons hd tl ih =>
    rw [keysNodup, List.map_cons, List.nodup_cons] at hn
    rcases List.mem_cons.mp h with h | h
    · cases h
      simp [mapGet]
    · have hk : hd.1 ≠ k := by
        intro hk
        exact hn.1 (hk ▸ (List.mem_map.mpr ⟨(k, v), h, rfl⟩))
      rw [mapGet, if_neg hk]
      exact ih hn.2 h

/-- Characterization of the checksum comparison loop: under the map invariant
on the pre checksums, it fires exactly when some algorithm is present in both
checksum sets with different values. -/
theorem checksumChanged_iff {preC postC : List (GoStr × GoStr)}
    (hn : keysNodup preC) :
    checksumChanged preC postC = true ↔
      ∃ algo v w, mapGet preC algo = some v ∧ mapGet postC algo = some w ∧
        v ≠ w := by
  rw [checksumChanged, List.any_eq_true]
  constructor
  · rintro ⟨⟨algo, v⟩, hmem, hcond⟩
    rcases hpost : mapGet postC algo with _ | w
    · rw [hpost] at hcond
      simp at hcond
    · rw [hpost] at hcond
      simp only [bne_iff_ne, ne_eq] at hcond
      exact ⟨algo, v, w, mapGet_eq_some_of_mem hn hmem, hpost,
        fun hvw => hcond (hvw ▸ rfl)⟩
  · rintro ⟨algo, v, w, hpre, hpost, hvw⟩
    refine ⟨(algo, v), mem_of_mapGet_eq_some hpre, ?_⟩
    rw [hpost]
    simp only [bne_iff_ne, ne_eq]
    exact fun h => hvw h.symm

/-- C1: the snapshot delta is exactly characterized by the spec rules.  An
artifact belongs to `Δ(pre, post)` precisely when it appears in `post` under
a path that is unknown in `pre`, or whose time differs from the pre entry,
or for which some checksum algorithm recorded in both snapshots carries
differing values.  Paths removed in `post` therefore never appear, and
algorithms present only in `post` do not by themselves cause inclusion. -/
theorem delta_characterization (pre post : Snapshot)
    (hpre : ∀ e ∈ pre, keysNodup e.2.checksum) (a : Artifact) :
    a ∈ Snapshot.Delta pre post ↔
      ∃ p, (p, a) ∈ post ∧
        (Snapshot.get pre p = none ∨
         ∃ b, Snapshot.get pre p = some b ∧
           (b.time ≠ a.time ∨
            ∃ algo v w, mapGet b.checksum algo = some v ∧
              mapGet a.checksum algo = some w ∧ v ≠ w)) := by
  rw [Snapshot.Delta, List.mem_map]
  constructor
  · rintro ⟨⟨p, f⟩, hf, rfl⟩
    rcases List.mem_filter.mp hf with ⟨hmem, hcond⟩
    refine ⟨p, hmem, ?_⟩
    rcases hget : Snapshot.get pre p with _ | b
    · exact Or.inl rfl
    · refine Or.inr ⟨b, rfl, ?_⟩
      rw [hget] at hcond
      simp only [Bool.or_eq_true, bne_iff_ne, ne_eq] at hcond
      rcases hcond with ht | hc
      · exact Or.inl ht
      · have hb : (p, b) ∈ pre := mem_of_mapGet_eq_some hget
        exact Or.inr ((checksumChanged_iff (hpre (p, b) hb)).mp hc)
  · rintro ⟨p, hmem, hcond⟩
    refine ⟨(p, a), List.mem_filter.mpr ⟨hmem, ?_⟩, rfl⟩
    rcases hcond with hnone | ⟨b, hsome, hrest⟩
    · rw [hnone]
    · rw [hsome]
      simp only [Bool.or_eq_true, bne_iff_ne, ne_eq]
      rcases hrest with ht | hc
      · exact Or.inl ht
      · have hb : (p, b) ∈ pre := mem_of_mapGet_eq_some hsome
        exact Or.inr ((checksumChanged_iff (hpre (p, b) hb)).mpr hc)

/-- Pre snapshot used to evaluate the delta characterization: one file whose
checksum is recorded under SHA256. -/
def preSnapEx : Snapshot :=
  [(("test.txt".toList),
    { path := "test.txt".toList,
      checksum := [("SHA256".toList, "c71d".toList)], time := 10 })]

/-- Post snapshot for the witness: same path and time, changed checksum. -/
def postSnapEx : Snapshot :=
  [(("test.txt".toList),
    { path := "test.txt".toList,
      checksum := [("SHA256".toList, "25b8".toList)], time := 10 })]

/-- Artifact expected in `Δ(preSnapEx, postSnapEx)`. -/
def artEx : Artifact :=
  { path := "test.txt".toList,
    checksum := [("SHA256".toList, "25b8".toList)], time := 10 }

theorem delta_characterization_witness :
    (∀ e ∈ preSnapEx, keysNodup e.2.checksum) ∧
      (artEx ∈ Snapshot.Delta preSnapEx postSnapEx ↔
        ∃ p, (p, artEx) ∈ postSnapEx ∧
          (Snapshot.get preSnapEx p = none ∨
           ∃ b, Snapshot.get preSnapEx p = some b ∧
             (b.time ≠ artEx.time ∨
              ∃ algo v w, mapGet b.checksum algo = some v ∧
                mapGet artEx.checksum algo = some w ∧ v ≠ w))) :=
  ⟨by decide, delta_characterization preSnapEx postSnapEx (by decide) artEx⟩

/-! ## Go string primitives used by the drivers -/

/-- strings.Cut with a one-character separator: the text before the first
occurrence, the text after it, and whether the separator was found. -/
def goCut : GoStr → Char → GoStr × GoStr × Bool
  | [], _ => ([], [], false)
  | c :: rest, sep =>
      if c = sep then ([], rest, true)
      else
        let r := goCut rest sep
        (c :: r.1, r.2.1, r.2.2)

/-- strings.ToLower. -/
def strToLower (s : GoStr) : GoStr := s.map Char.toLower

/-- strings.HasPrefix (recursion on the probe so it reduces on literals). -/
def strStartsWith (s p : GoStr) : Bool :=
  match p, s with
  | [], _ => true
  | _ :: _, [] => false
  | pc :: ps, c :: cs => c == pc && strStartsWith cs ps

/-- strings.SplitN with a one-character separator: at most `n` fields, the
last one keeping the unsplit remainder. -/
def splitN (s : GoStr) (sep : Char) : Nat → List GoStr
  | 0 => []
  | 1 => [s]
  | n + 2 =>
      let r := goCut s sep
      if r.2.2 then r.1 :: splitN r.2.1 sep (n + 1) else [s]

/-- strings.TrimSuffix with a one-character suffix. -/
def trimSuffixChar (s : GoStr) (c : Char) : GoStr :=
  if s.getLast? = some c then s.dropLast else s

/-- Numeric value of a digit string. -/
def digitsVal (s : GoStr) : Nat :=
  s.foldl (fun acc c => acc * 10 + (c.toNat - '0'.toNat)) 0

/-- strconv.Atoi: an optional sign followed by at least one digit
(machine-size overflow is not modelled; run ids stay far below it). -/
def goAtoi (s : GoStr) : Option Int :=
  match s with
  | [] => none
  | c :: rest =>
      if c = '+' then
        if rest ≠ [] ∧ rest.all Char.isDigit then some (digitsVal rest)
        else none
      else if c = '-' then
        if rest ≠ [] ∧ rest.all Char.isDigit then some (-(digitsVal rest : Int))
        else none
      else if (c :: rest).all Char.isDigit then some (digitsVal (c :: rest))
      else none

theorem goCut_eq_of_not_mem {s : GoStr} {sep : Char} (h : sep ∉ s) :
    goCut s sep = (s, [], false) := by
  induction s with
  | nil => rfl
  | cons c rest ih =>
    have hc : c ≠ sep := fun hc => h (hc ▸ List.mem_cons_self c rest)
    have hrest : sep ∉ rest := fun hr => h (List.mem_cons_of_mem c hr)
    rw [goCut, if_neg hc, ih hrest]

theorem goCut_append_cons {a b : GoStr} {sep : Char} (h : sep ∉ a) :
    goCut (a ++ sep :: b) sep = (a, b, true) := by
  induction a with
  | nil => simp [goCut]
  | cons c rest ih =>
    have hc : c ≠ sep := fun hc => h (hc ▸ List.mem_cons_self c rest)
    have hrest : sep ∉ rest := fun hr => h (List.mem_cons_of_mem c hr)
    rw [List.cons_append, goCut, if_neg hc, ih hrest]

/-! ## Resource descriptors and the builder facade (pkg/builder/builder.go) -/

/-- in-toto `ResourceDescriptor` as the drivers use it.  The digest set is an
optional map: `none` models a nil Go map (readable as empty, but a write to
it panics), `some m` an allocated map. -/
structure ResourceDescriptorM where
  uri : GoStr
  digest : Option (List (GoStr × GoStr))
  downloadLocation : GoStr
deriving DecidableEq

/-- Go read of a possibly nil digest map. -/
def rdGetDigest (d : ResourceDescriptorM) : List (GoStr × GoStr) :=
  d.digest.getD []

/-- Builder.BuildPredicate dependency loop body (pkg/builder/builder.go
lines 75-105): cut the URI at the first `@`; a 40-character suffix is taken
as a Git commit, a suffix starting with `sha` (case-insensitive) and
containing `:` as an `algo:value` digest, anything else leaves the whole
string as the URI. -/
def decorateDependency (uri : GoStr) : ResourceDescriptorM :=
  let r := goCut uri '@'
  let u := r.1
  let commit := r.2.1
  let ok := r.2.2
  let des : ResourceDescriptorM := { uri := u, digest := some [], downloadLocation := [] }
  if ok then
    let cr := goCut commit ':'
    if commit.length = 40 then
      { des with
          digest := some [("sha1".toList, commit), ("gitCommit".toList, commit)],
          downloadLocation := uri }
    else if strStartsWith (strToLower commit) ("sha".toList) && cr.2.2 then
      { des with
          digest := some [(strToLower cr.1, cr.2.1)],
          downloadLocation := uri }
    else { des with uri := uri }
  else des

/-- Three-way classification of a dependency suffix. -/
inductive DepClass where
  | git40
  | digestColon
  | plainURI
deriving DecidableEq

/-- Suffix classification as the code performs it (builder.go lines 88-99):
the first branch tests only the length. -/
def codeClassifySuffix (commit : GoStr) : DepClass :=
  if commit.length = 40 then .git40
  else if strStartsWith (strToLower commit) ("sha".toList) && (goCut commit ':').2.2 then
    .digestColon
  else .plainURI

/-- Hexadecimal character test. -/
def isHexChar (c : Char) : Bool :=
  c.isDigit || ('a' ≤ c && c ≤ 'f') || ('A' ≤ c && c ≤ 'F')

/-- Modelled from the spec (§4.7): the specified classification demands
exactly 40 HEX characters for the Git-commit branch; kept separate from
`codeClassifySuffix` to compare the two. -/
def specClassifySuffix (commit : GoStr) : DepClass :=
  if commit.length = 40 ∧ commit.all isHexChar then .git40
  else if strStartsWith (strToLower commit) ("sha".toList) && (goCut commit ':').2.2 then
    .digestColon
  else .plainURI

/-- Forty characters that are not hexadecimal digits. -/
def nonHex40 : GoStr := List.replicate 40 'z'

/-- C5 counterexample: on a 40-character non-hex suffix the spec rule says
plain URI (no digest), but the code takes the Git-commit branch and emits a
`sha1`/`gitCommit` digest set, so the claimed hex requirement is absent. -/
theorem dependency_classification_counterexample :
    specClassifySuffix nonHex40 = DepClass.plainURI ∧
      codeClassifySuffix nonHex40 = DepClass.git40 ∧
      (decorateDependency ("x@".toList ++ nonHex40)).digest =
        some [("sha1".toList, nonHex40), ("gitCommit".toList, nonHex40)] ∧
      (decorateDependency ("x@".toList ++ nonHex40)).digest ≠ some [] := by
  refine ⟨by decide, by decide, ?_, ?_⟩ <;> decide

/-- C5 amended: classification tests only the length of the suffix, not that
it is hexadecimal.  For an input `u@c` (cut at the first `@`): a 40-character
suffix gets `sha1` and `gitCommit` digests and the original string as
download location; otherwise a suffix starting with `sha` and containing `:`
gets the lowercased algorithm mapped to the value; any other suffix keeps
the full original string as the URI with an empty digest set.  The three
guard shapes cover every input and exclude one another. -/
theorem dependency_classification_amended (u c : GoStr) (hu : '@' ∉ u) :
    (c.length = 40 →
      decorateDependency (u ++ '@' :: c) =
        { uri := u,
          digest := some [("sha1".toList, c), ("gitCommit".toList, c)],
          downloadLocation := u ++ '@' :: c }) ∧
    (c.length ≠ 40 →
      strStartsWith (strToLower c) ("sha".toList) = true → (goCut c ':').2.2 = true →
      decorateDependency (u ++ '@' :: c) =
        { uri := u,
          digest := some [(strToLower (goCut c ':').1, (goCut c ':').2.1)],
          downloadLocation := u ++ '@' :: c }) ∧
    (c.length ≠ 40 →
      strStartsWith (strToLower c) ("sha".toList) = false ∨ (goCut c ':').2.2 = false →
      decorateDependency (u ++ '@' :: c) =
        { uri := u ++ '@' :: c, digest := some [], downloadLocation := [] }) := by
  have hcut : goCut (u ++ '@' :: c) '@' = (u, c, true) := goCut_append_cons hu
  refine ⟨fun h40 => ?_, fun h40 h1 h2 => ?_, fun h40 hsha => ?_⟩
  · simp [decorateDependency, hcut, h40]
  · have h1' : strStartsWith (strToLower c) ['s', 'h', 'a'] = true := h1
    simp [decorateDependency, hcut, h40, h1', h2]
  · rcases hsha with h | h
    · have h' : strStartsWith (strToLower c) ['s', 'h', 'a'] = false := h
      simp [decorateDependency, hcut, h40, h']
    · simp [decorateDependency, hcut, h40, h]

theorem dependency_classification_amended_witness :
    decorateDependency ("x".toList ++ '@' :: "sha256:abc".toList) =
      { uri := "x".toList,
        digest := some [(strToLower (goCut "sha256:abc".toList ':').1,
          (goCut "sha256:abc".toList ':').2.1)],
        downloadLocation := "x".toList ++ '@' :: "sha256:abc".toList } :=
  (dependency_classification_amended "x".toList "sha256:abc".toList
    (by decide)).2.1 (by decide) (by decide) (by decide)

/-! ## net/url and the workflow driver URL parser (driver/github.go) -/

/-- A parsed URL restricted to the fields the drivers read. -/
structure GoURL where
  scheme : GoStr
  host : GoStr
  path : GoStr
deriving DecidableEq

/-- net/url parsing restricted to the `scheme://host/path` shapes the
drivers receive; a string without a `://` prefix is kept as an opaque path
with empty scheme and host (queries, fragments and userinfo are outside the
inputs exercised here, a port is stripped by `hostname` below). -/
def goURLParse (s : GoStr) : GoURL :=
  let r := goCut s ':'
  if r.2.2 && strStartsWith r.2.1 ("//".toList) then
    let hp := r.2.1.drop 2
    let hr := goCut hp '/'
    { scheme := r.1, host := hr.1,
      path := if hr.2.2 then '/' :: hr.2.1 else [] }
  else { scheme := [], host := [], path := s }

/-- url.URL.Hostname: the host without a trailing `:port`. -/
def GoURL.hostname (u : GoURL) : GoStr := (goCut u.host ':').1

/-- parseGitHubURL (driver/github.go lines 46-64): require the `github`
scheme, split the path in at most three fields, parse the run id from the
last field (one trailing slash trimmed), and return the hostname, the second
field and the id. -/
def parseGitHubURL (specURL : GoStr) : Except GoStr (GoStr × GoStr × Int) :=
  let u := goURLParse specURL
  if u.scheme ≠ "github".toList then .error ("URL is not a github URL".toList)
  else
    match splitN u.path '/' 3 with
    | [_, p1, p2] =>
        match goAtoi (trimSuffixChar p2 '/') with
        | none => .error ("parsing run ID from URL".toList)
        | some rID => .ok (u.hostname, p1, rID)
    | _ => .error ("invalid run URI".toList)

/-- C7 counterexample: the four-component form of the spec is rejected.  On
`github://github.com/org/repo/7492361110` the path splits into
`["", "org", "repo/7492361110"]` and the run-id field `repo/7492361110`
fails numeric parsing, so the driver returns an error instead of
`(org, repo, 7492361110)`. -/
theorem github_four_component_uri_rejected :
    parseGitHubURL "github://github.com/org/repo/7492361110".toList =
      .error ("parsing run ID from URL".toList) := by
  rfl

/-- C7 amended: the workflow driver accepts the three-component form
`github://owner/repo/run-id` — the owner sits in the host position of the
URI — and extracts the owner, the repository and the numeric run id
(one trailing slash is tolerated after the id). -/
theorem github_three_component_uri_accepted (owner repo ds : GoStr)
    (h1 : ':' ∉ owner) (h2 : '/' ∉ owner) (h3 : '/' ∉ repo)
    (h4 : ds ≠ []) (h5 : ds.all Char.isDigit = true) :
    parseGitHubURL ("github://".toList ++ (owner ++ '/' :: (repo ++ '/' :: ds))) =
      .ok (owner, repo, (digitsVal ds : Int)) := by
  have hc1 : goCut ("github".toList ++ ':' :: ('/' :: '/' :: (owner ++ '/' :: (repo ++ '/' :: ds)))) ':'
      = ("github".toList, '/' :: '/' :: (owner ++ '/' :: (repo ++ '/' :: ds)), true) :=
    goCut_append_cons (by decide)
  have hc2 : goCut (owner ++ '/' :: (repo ++ '/' :: ds)) '/' = (owner, repo ++ '/' :: ds, true) :=
    goCut_append_cons h2
  have hc3 : goCut owner ':' = (owner, [], false) := goCut_eq_of_not_mem h1
  have hsplit1 : splitN ('/' :: (repo ++ '/' :: ds)) '/' 3
      = [] :: splitN (repo ++ '/' :: ds) '/' 2 := by
    show (let r := goCut ('/' :: (repo ++ '/' :: ds)) '/'
          if r.2.2 then r.1 :: splitN r.2.1 '/' 2 else [('/' :: (repo ++ '/' :: ds))]) = _
    simp [goCut]
  have hsplit2 : splitN (repo ++ '/' :: ds) '/' 2 = [repo, ds] := by
    show (let r := goCut (repo ++ '/' :: ds) '/'
          if r.2.2 then r.1 :: splitN r.2.1 '/' 1 else [(repo ++ '/' :: ds)]) = _
    rw [goCut_append_cons h3]
    simp [splitN]
  have htrim : trimSuffixChar ds '/' = ds := by
    rw [trimSuffixChar]
    rcases hl : ds.getLast? with _ | c
    · simp
    · have hc : c ∈ ds := List.mem_of_mem_getLast? (by rw [hl]; rfl)
      have hcd : c.isDigit = true := by
        have := List.all_eq_true.mp h5
        simpa using this c hc
      have : c ≠ '/' := by
        intro h
        rw [h] at hcd
        exact absurd hcd (by decide)
      rw [if_neg (by simp [this])]
  have hatoi : goAtoi ds = some ((digitsVal ds : Nat) : Int) := by
    cases ds with
    | nil => exact absurd rfl h4
    | cons d rest =>
      have hd : d.isDigit = true := by
        have := List.all_eq_true.mp h5
        simpa using this d (List.mem_cons_self _ _)
      have hplus : d ≠ '+' := by
        intro h
        rw [h] at hd
        exact absurd hd (by decide)
      have hminus : d ≠ '-' := by
        intro h
        rw [h] at hd
        exact absurd hd (by decide)
      simp [goAtoi, hplus, hminus, h5]
  simp at hc1 hsplit1 hsplit2
  simp [parseGitHubURL, goURLParse, GoURL.hostname, strStartsWith, hc1, hc2, hc3,
    hsplit1, hsplit2, htrim, hatoi]

theorem github_three_component_uri_accepted_witness :
    parseGitHubURL ("github://".toList ++
        ("org".toList ++ '/' :: ("repo".toList ++ '/' :: "7492361110".toList))) =
      .ok ("org".toList, "repo".toList, (digitsVal "7492361110".toList : Int)) :=
  github_three_component_uri_accepted "org".toList "repo".toList "7492361110".toList
    (by decide) (by decide) (by decide) (by decide) (by decide)

/-! ## Run model (pkg/run) and backend response payloads -/

/-- pkg/run `Step`. -/
structure Step where
  command : GoStr
  image : GoStr
  isSuccess : Bool
  params : List GoStr
  startTime : Int
  endTime : Int
  environment : List (GoStr × GoStr)
deriving DecidableEq

/-- pkg/github `Run`: the decoded workflow-run API response (the fields the
drivers read). -/
structure GitHubRunData where
  status : GoStr
  conclusion : GoStr
  headSHA : GoStr
  path : GoStr
  createdAt : GoStr
  updatedAt : GoStr
deriving DecidableEq

/-- cloudbuild step timing block (string timestamps as the API returns
them); `none` models a nil `Timing` pointer. -/
structure CloudBuildTiming where
  startTime : GoStr
  endTime : GoStr
deriving DecidableEq

/-- cloudbuild build step. -/
structure CloudBuildStep where
  name : GoStr
  args : List GoStr
  timing : Option CloudBuildTiming
deriving DecidableEq

/-- cloudbuild `Build`: the decoded container-build API response (the
fields the driver reads); `substitutions := none` models a nil map. -/
structure CloudBuild where
  status : GoStr
  substitutions : Option (List (GoStr × GoStr))
  steps : List CloudBuildStep
  serviceAccount : GoStr
  buildTriggerId : GoStr
deriving DecidableEq

/-- The opaque `SystemData` payload a driver attaches to its run. -/
inductive SystemData where
  | empty
  | gcb (build : CloudBuild)
  | github (runData : GitHubRunData)
deriving DecidableEq

/-- pkg/run `Run`: one build execution.  Zero values of the Go struct:
false flags, empty slices, zero times, nil system data and build point. -/
structure Run where
  specURL : GoStr
  isSuccess : Bool
  isRunning : Bool
  params : List GoStr
  steps : List Step
  artifacts : List Artifact
  startTime : Int
  endTime : Int
  systemData : SystemData
  buildPoint : Option ResourceDescriptorM
deriving DecidableEq

/-- The run literal both drivers build inside GetRun: spec URL plus zero
values everywhere else (IsRunning is omitted in the Go literal, so it is
false). -/
def initialRun (specURL : GoStr) : Run :=
  { specURL := specURL, isSuccess := false, isRunning := false, params := [],
    steps := [], artifacts := [], startTime := 0, endTime := 0,
    systemData := .empty, buildPoint := none }

/-! ## Workflow driver refresh (driver/github.go) -/

/-- GitHubWorkflow.RefreshRun (driver/github.go lines 82-140) with the
backend response supplied as `runData` (the HTTP round trip is external; a
non-2xx response errors before any mutation).  Status `completed` clears
IsRunning — no branch ever sets it; the conclusion switch sets IsSuccess;
the system data and the `git+ssh` build point are attached.  The run's own
start and end times are never touched. -/
def ghwRefreshRun (r : Run) (runData : GitHubRunData) : Except GoStr Run :=
  match parseGitHubURL r.specURL with
  | .error e => .error e
  | .ok (org, repo, _) =>
      let r := if runData.status = "completed".toList then { r with isRunning := false } else r
      let r :=
        if runData.conclusion = "failure".toList ∨ runData.conclusion = "cancelled".toList then
          { r with isSuccess := false }
        else if runData.conclusion = "success".toList then { r with isSuccess := true }
        else r
      .ok { r with
        systemData := .github runData,
        buildPoint := some
          { uri := "git+ssh://github.com/".toList ++ org ++ '/' :: (repo ++ '@' :: runData.headSHA),
            digest := some [("sha1".toList, runData.headSHA)],
            downloadLocation := [] } }

/-- GitHubWorkflow.GetRun: the zero-value run literal followed by an
initial refresh. -/
def ghwGetRun (specURL : GoStr) (runData : GitHubRunData) : Except GoStr Run :=
  ghwRefreshRun (initialRun specURL) runData

/-- A sequence of refreshes applied after GetRun, stopping at the first
error as the watcher does. -/
def ghwRefreshFold (start : Except GoStr Run) (ds : List GitHubRunData) : Except GoStr Run :=
  ds.foldl
    (fun acc d =>
      match acc with
      | .error e => .error e
      | .ok r => ghwRefreshRun r d)
    start

/-! ## The watch loop (pkg/watcher/watcher.go lines 82-100) -/

/-- Watcher.Watch as a refresh counter: the backend is abstracted as the
sequence of is-running states successive RefreshRun calls produce, fuel
bounds the unrolling, and the result is how many RefreshRun calls run
before the loop observes `¬IsRunning` and returns (`none` when the fuel is
exhausted with the loop still polling).  As in the source, `waitForBuild`
is read only for the warning message and never alters control flow. -/
def watchRefreshCount (waitForBuild : Bool) (running : Bool)
    (refreshSeq : Nat → Bool) : Nat → Option Nat
  | 0 => none
  | fuel + 1 =>
      if !running then some 0
      else
        match watchRefreshCount waitForBuild (refreshSeq 0)
            (fun n => refreshSeq (n + 1)) fuel with
        | none => none
        | some k => some (k + 1)

/-- C3 (evaluating the code at the failing input): a run that is still
running after the first refresh and stops after the second.  With
`wait_for_build` false the loop performs two refreshes, not the one the
claim allows, behaves identically to `wait_for_build` true, and against a
backend that never stops it polls forever (fuel exhaustion at any bound,
here 50). -/
theorem watch_ignores_wait_for_build_flag :
    watchRefreshCount false true (fun n => decide (n = 0)) 10 = some 2 ∧
      watchRefreshCount false true (fun n => decide (n = 0)) 10 =
        watchRefreshCount true true (fun n => decide (n = 0)) 10 ∧
      watchRefreshCount false true (fun _ => true) 50 = none := by
  refine ⟨rfl, rfl, rfl⟩

theorem ghwRefreshRun_keeps_not_running {r : Run} {d : GitHubRunData} {r' : Run}
    (hr : r.isRunning = false) (h : ghwRefreshRun r d = .ok r') :
    r'.isRunning = false := by
  rcases hp : parseGitHubURL r.specURL with e | ⟨org, repo, n⟩ <;>
    rw [ghwRefreshRun, hp] at h
  · cases h
  · cases h
    split_ifs <;> simp [hr]

theorem foldl_refresh_error (ds : List GitHubRunData) (e : GoStr) :
    List.foldl
      (fun acc d =>
        match acc with
        | .error e => Except.error e
        | .ok r => ghwRefreshRun r d)
      (Except.error e) ds = .error e := by
  induction ds with
  | nil => rfl
  | cons d ds ih => rw [List.foldl_cons]; exact ih

theorem ghwRefreshFold_keeps_not_running {ds : List GitHubRunData}
    {start : Except GoStr Run} {r : Run}
    (hstart : ∀ r0, start = .ok r0 → r0.isRunning = false)
    (h : ghwRefreshFold start ds = .ok r) : r.isRunning = false := by
  induction ds generalizing start with
  | nil => exact hstart r h
  | cons d ds ih =>
    rw [ghwRefreshFold, List.foldl_cons] at h
    cases start with
    | error e =>
        rw [show (match (Except.error e : Except GoStr Run) with
              | .error e => Except.error e
              | .ok r0 => ghwRefreshRun r0 d) = Except.error e from rfl,
          foldl_refresh_error] at h
        cases h
    | ok rs =>
        exact ih (fun r0 h0 => ghwRefreshRun_keeps_not_running (hstart rs rfl) h0) h

/-- C10: the workflow driver never reports a run as running.  After GetRun
and any sequence of RefreshRun calls the IsRunning flag is false — the
driver only ever clears it (on status `completed`) and never sets it — so
the watcher's wait loop returns after zero refreshes. -/
theorem github_run_never_running (specURL : GoStr) (d0 : GitHubRunData)
    (ds : List GitHubRunData) (r : Run)
    (h : ghwRefreshFold (ghwGetRun specURL d0) ds = .ok r) :
    r.isRunning = false ∧
      ∀ waitForBuild refreshSeq fuel,
        watchRefreshCount waitForBuild r.isRunning refreshSeq (fuel + 1) = some 0 := by
  have hrun : r.isRunning = false := by
    refine ghwRefreshFold_keeps_not_running ?_ h
    intro r0 h0
    exact ghwRefreshRun_keeps_not_running (r := initialRun specURL) rfl h0
  refine ⟨hrun, fun waitForBuild refreshSeq fuel => ?_⟩
  rw [hrun]
  rfl

/-- Workflow-run response of a completed, successful run. -/
def ghRunDataEx : GitHubRunData :=
  { status := "completed".toList, conclusion := "success".toList,
    headSHA := "abc".toList, path := "w.yml".toList,
    createdAt := [], updatedAt := [] }

/-- The run GetRun produces for `github://org/repo/123` and
`ghRunDataEx`. -/
def ghwRunEx : Run :=
  { specURL := "github://org/repo/123".toList, isSuccess := true,
    isRunning := false, params := [], steps := [], artifacts := [],
    startTime := 0, endTime := 0, systemData := .github ghRunDataEx,
    buildPoint := some
      { uri := "git+ssh://github.com/org/repo@abc".toList,
        digest := some [("sha1".toList, "abc".toList)],
        downloadLocation := [] } }

theorem github_run_never_running_witness :
    ghwRunEx.isRunning = false ∧
      watchRefreshCount false ghwRunEx.isRunning (fun _ => true) 5 = some 0 :=
  ⟨(github_run_never_running "github://org/repo/123".toList ghRunDataEx [] ghwRunEx
      (by rfl)).1,
    (github_run_never_running "github://org/repo/123".toList ghRunDataEx [] ghwRunEx
      (by rfl)).2 false (fun _ => true) 4⟩

/-! ## Predicate model (pkg/attestation, v0.2 and v1 shapes) -/

/-- Free-form JSON-like values (structpb / `map[string]any`). -/
inductive PVal where
  | str (s : GoStr)
  | obj (fields : List (GoStr × PVal))
  | arr (elems : List PVal)

/-- v1 `BuildDefinition` (part of the slsa v1 provenance proto). -/
structure BuildDefinitionM where
  buildType : GoStr
  externalParameters : List (GoStr × PVal)
  internalParameters : List (GoStr × PVal)
  resolvedDependencies : List ResourceDescriptorM

/-- v1 `BuildMetadata`; `some 0` models the allocated zero timestamp. -/
structure BuildMetadataM where
  invocationId : GoStr
  startedOn : Option Int
  finishedOn : Option Int

/-- v1 `RunDetails`. -/
structure RunDetailsM where
  builderId : GoStr
  builderVersion : List (GoStr × GoStr)
  metadata : BuildMetadataM
  byproducts : List ResourceDescriptorM

/-- SLSAPredicateV1 (attestation package, part_007). -/
structure SLSAPredicateV1 where
  buildDefinition : BuildDefinitionM
  runDetails : RunDetailsM

/-- NewSLSAV1Predicate: every field initialized empty. -/
def newSLSAV1Predicate : SLSAPredicateV1 :=
  { buildDefinition :=
      { buildType := [], externalParameters := [], internalParameters := [],
        resolvedDependencies := [] },
    runDetails :=
      { builderId := [], builderVersion := [],
        metadata := { invocationId := [], startedOn := some 0, finishedOn := some 0 },
        byproducts := [] } }

def SLSAPredicateV1.SetBuilderID (pred : SLSAPredicateV1) (id : GoStr) : SLSAPredicateV1 :=
  { pred with runDetails := { pred.runDetails with builderId := id } }

def SLSAPredicateV1.SetBuilderType (pred : SLSAPredicateV1) (id : GoStr) : SLSAPredicateV1 :=
  { pred with buildDefinition := { pred.buildDefinition with buildType := id } }

def SLSAPredicateV1.SetInvocationID (pred : SLSAPredicateV1) (id : GoStr) : SLSAPredicateV1 :=
  { pred with runDetails := { pred.runDetails with
      metadata := { pred.runDetails.metadata with invocationId := id } } }

/-- SetConfigSource (part_007 lines 75-81): compose `uri@sha1` when a
non-empty sha1 digest is present and store it under
`externalParameters.source`. -/
def SLSAPredicateV1.SetConfigSource (pred : SLSAPredicateV1) (src : ResourceDescriptorM) :
    SLSAPredicateV1 :=
  let lc8r :=
    match mapGet (rdGetDigest src) "sha1".toList with
    | some h => if h ≠ [] then src.uri ++ '@' :: h else src.uri
    | none => src.uri
  { pred with buildDefinition := { pred.buildDefinition with
      externalParameters :=
        mapSet pred.buildDefinition.externalParameters "source".toList (PVal.str lc8r) } }

def SLSAPredicateV1.SetEntryPoint (pred : SLSAPredicateV1) (ep : GoStr) : SLSAPredicateV1 :=
  { pred with buildDefinition := { pred.buildDefinition with
      externalParameters :=
        mapSet pred.buildDefinition.externalParameters "entryPoint".toList (PVal.str ep) } }

/-- SetBuildConfig (part_007 line 110): `buildConfig` is deprecated in v1,
the call is accepted and the configuration dropped — the body is empty. -/
def SLSAPredicateV1.SetBuildConfig (pred : SLSAPredicateV1)
    (conf : List (GoStr × PVal)) : SLSAPredicateV1 :=
  pred

def SLSAPredicateV1.SetInternalParameters (pred : SLSAPredicateV1)
    (params : List (GoStr × PVal)) : SLSAPredicateV1 :=
  { pred with buildDefinition := { pred.buildDefinition with
      internalParameters := params } }

def SLSAPredicateV1.AddDependency (pred : SLSAPredicateV1) (dep : ResourceDescriptorM) :
    SLSAPredicateV1 :=
  { pred with buildDefinition := { pred.buildDefinition with
      resolvedDependencies := pred.buildDefinition.resolvedDependencies ++ [dep] } }

def SLSAPredicateV1.SetStartedOn (pred : SLSAPredicateV1) (d : Option Int) : SLSAPredicateV1 :=
  { pred with runDetails := { pred.runDetails with
      metadata := { pred.runDetails.metadata with startedOn := d } } }

def SLSAPredicateV1.SetFinishedOn (pred : SLSAPredicateV1) (d : Option Int) : SLSAPredicateV1 :=
  { pred with runDetails := { pred.runDetails with
      metadata := { pred.runDetails.metadata with finishedOn := d } } }

/-- v0.2 `SLSAPredicate` (attestation package), flattened to the fields the
setters reach. -/
structure SLSAPredicate02 where
  builderId : GoStr
  buildType : GoStr
  configSourceURI : GoStr
  configSourceDigest : List (GoStr × GoStr)
  entryPoint : GoStr
  environment : Option (List (GoStr × PVal))
  buildConfig : Option (List (GoStr × PVal))
  invocationId : GoStr
  startedOn : Option Int
  finishedOn : Option Int
  materials : List (GoStr × List (GoStr × GoStr))

/-- NewSLSAPredicate: empty fields, allocated config-source digest map. -/
def newSLSAPredicate02 : SLSAPredicate02 :=
  { builderId := [], buildType := [], configSourceURI := [],
    configSourceDigest := [], entryPoint := [], environment := none,
    buildConfig := none, invocationId := [], startedOn := none,
    finishedOn := none, materials := [] }

/-- The polymorphic predicate handed around by the watcher and drivers. -/
inductive PredicateM where
  | v02 (p : SLSAPredicate02)
  | v1 (p : SLSAPredicateV1)

def PredicateM.SetBuilderID : PredicateM → GoStr → PredicateM
  | .v02 p, id => .v02 { p with builderId := id }
  | .v1 p, id => .v1 (p.SetBuilderID id)

def PredicateM.SetBuilderType : PredicateM → GoStr → PredicateM
  | .v02 p, id => .v02 { p with buildType := id }
  | .v1 p, id => .v1 (p.SetBuilderType id)

def PredicateM.SetInvocationID : PredicateM → GoStr → PredicateM
  | .v02 p, id => .v02 { p with invocationId := id }
  | .v1 p, id => .v1 (p.SetInvocationID id)

/-- v0.2 SetConfigSource copies every digest entry into the config-source
digest map and overwrites the URI; v1 dispatches to its own setter. -/
def PredicateM.SetConfigSource : PredicateM → ResourceDescriptorM → PredicateM
  | .v02 p, src => .v02 { p with
      configSourceDigest :=
        (rdGetDigest src).foldl (fun m kv => mapSet m kv.1 kv.2) p.configSourceDigest,
      configSourceURI := src.uri }
  | .v1 p, src => .v1 (p.SetConfigSource src)

def PredicateM.SetEntryPoint : PredicateM → GoStr → PredicateM
  | .v02 p, ep => .v02 { p with entryPoint := ep }
  | .v1 p, ep => .v1 (p.SetEntryPoint ep)

def PredicateM.SetBuildConfig : PredicateM → List (GoStr × PVal) → PredicateM
  | .v02 p, conf => .v02 { p with buildConfig := some conf }
  | .v1 p, conf => .v1 (p.SetBuildConfig conf)

def PredicateM.SetInternalParameters : PredicateM → List (GoStr × PVal) → PredicateM
  | .v02 p, params => .v02 { p with environment := some params }
  | .v1 p, params => .v1 (p.SetInternalParameters params)

/-- C9: on a v1 predicate `set_build_config` accepts any configuration map
and silently drops it: the build definition (build type, external and
internal parameters, resolved dependencies) and the run details are all
unchanged, indeed the whole predicate is. -/
theorem set_build_config_noop_on_v1 (p : SLSAPredicateV1) (conf : List (GoStr × PVal)) :
    (p.SetBuildConfig conf).buildDefinition.buildType = p.buildDefinition.buildType ∧
      (p.SetBuildConfig conf).buildDefinition.externalParameters =
        p.buildDefinition.externalParameters ∧
      (p.SetBuildConfig conf).buildDefinition.internalParameters =
        p.buildDefinition.internalParameters ∧
      (p.SetBuildConfig conf).buildDefinition.resolvedDependencies =
        p.buildDefinition.resolvedDependencies ∧
      (p.SetBuildConfig conf).runDetails = p.runDetails ∧
      p.SetBuildConfig conf = p :=
  ⟨rfl, rfl, rfl, rfl, rfl, rfl⟩

/-! ## Container-build driver (driver/gcb.go) -/

/-- Abstract model of Go time.Parse with RFC3339Nano: timestamp-shaped
strings (digits plus the separators of the format) parse to an instant
folded from their digits, anything else — the empty string in
particular — fails.  Only well-formed stamps and the empty string are
exercised below. -/
def goParseTime (s : GoStr) : Option Int :=
  if s ≠ [] ∧ s.all (fun c => c.isDigit || c ∈ ['-', ':', 'T', 'Z', '+', '.']) then
    some (digitsVal (s.filter Char.isDigit))
  else none

/-- Write into a possibly nil Go map: assignment to an entry of a nil map
is a runtime panic, modelled as an error. -/
def nilMapWrite (m : Option (List (GoStr × GoStr))) (k v : GoStr) :
    Except GoStr (Option (List (GoStr × GoStr))) :=
  match m with
  | none => .error "panic: assignment to entry in nil map".toList
  | some mm => .ok (some (mapSet mm k v))

/-- Body of the step loop in GCB.RefreshRun (gcb.go lines 382-408),
including the inverted empty-string test on the start time the spec records
as a known quirk: when the start time is the empty string its (always
failing) parse is fatal only if the end time is non-empty, otherwise the
zero instant is stored; when the start time is non-empty the END time is
parsed and stored — the start time of the step is never read. -/
def gcbUpdateStep (old : Step) (s : CloudBuildStep) : Except GoStr Step := do
  let st := { old with image := s.name, params := s.args }
  match s.timing with
  | none => .ok st
  | some t => do
      let st ←
        if t.startTime = [] then
          if t.endTime ≠ [] then .error ("parsing step start time".toList)
          else .ok { st with startTime := (goParseTime t.startTime).getD 0 }
        else
          match goParseTime t.endTime with
          | none =>
              if t.endTime ≠ [] then .error ("parsing step end time".toList)
              else .ok { st with endTime := 0 }
          | some v => .ok { st with endTime := v }
      if t.endTime = [] then .ok { st with endTime := 0 }
      else
        match goParseTime t.endTime with
        | none => .error ("parsing step endtime".toList)
        | some v => .ok { st with endTime := v }

/-- The step merge loop of GCB.RefreshRun: existing steps are updated in
place by index, a zero-valued step is appended when the run has fewer, and
steps beyond the response keep their old values. -/
def gcbMergeSteps : List Step → List CloudBuildStep → Except GoStr (List Step)
  | olds, [] => .ok olds
  | olds, b :: bs => do
      let old := olds.headD
        { command := [], image := [], isSuccess := false, params := [],
          startTime := 0, endTime := 0, environment := [] }
      let s ← gcbUpdateStep old b
      let rest ← gcbMergeSteps olds.tail bs
      .ok (s :: rest)

/-- Status switch of GCB.RefreshRun (gcb.go lines 422-432); statuses
outside the table leave both flags unchanged. -/
def gcbStatusFlags (status : GoStr) (old : Bool × Bool) : Bool × Bool :=
  if status = "SUCCESS".toList then (true, false)
  else if status = "PENDING".toList ∨ status = "QUEUED".toList ∨
      status = "WORKING".toList then (false, true)
  else if status = "FAILURE".toList ∨ status = "INTERNAL_ERROR".toList ∨
      status = "TIMEOUT".toList ∨ status = "CANCELLED".toList ∨
      status = "EXPIRED".toList then (false, false)
  else old

/-- GCB.RefreshRun (gcb.go lines 352-437) with the backend response
supplied as `build`: substitutions become `K=V` params, the steps are
merged, the status switch sets the flags and the raw build is attached as
system data.  The run's own start and end times are never touched. -/
def gcbRefreshRun (r : Run) (build : CloudBuild) : Except GoStr Run :=
  let params := (build.substitutions.getD []).map fun kv => kv.1 ++ '=' :: kv.2
  match gcbMergeSteps r.steps build.steps with
  | .error e => .error e
  | .ok steps =>
      let flags := gcbStatusFlags build.status (r.isSuccess, r.isRunning)
      .ok { r with params := params, steps := steps, isSuccess := flags.1,
                   isRunning := flags.2, systemData := .gcb build }

/-- GCB.BuildPredicate (gcb.go lines 441-508).  The trigger-details API
call is abstracted as `triggerRepo`.  The fresh `ResourceDescriptor{}` has
a nil digest map, so the `COMMIT_SHA` branch writes into a nil map — the
resulting panic surfaces as the error of this model.  The `steps` list put
into the build config stays empty: the Go loop assigns the appended slice
into the map but never back into the slice, and the final assignment stores
the untouched empty slice. -/
def gcbBuildPredicate (projectID : GoStr) (triggerRepo : GoStr → Except GoStr GoStr)
    (r : Run) (draft : Option PredicateM) : Except GoStr PredicateM := do
  let predicate :=
    match draft with
    | none => PredicateM.v02 newSLSAPredicate02
    | some d => d
  let predicate :=
    predicate.SetBuilderType "https://cloudbuild.googleapis.com/CloudBuildYaml@v1".toList
  let predicate := predicate.SetBuildConfig [("steps".toList, PVal.arr [])]
  match r.systemData with
  | .gcb build => do
      let confsource : ResourceDescriptorM :=
        { uri := [], digest := none, downloadLocation := [] }
      let pcs ←
        match build.substitutions with
        | some subs => do
            let confsource ←
              match mapGet subs "COMMIT_SHA".toList with
              | some c => do
                  let d ← nilMapWrite confsource.digest "sha1".toList c
                  let d2 ← nilMapWrite d "gitCommit".toList c
                  Except.ok { confsource with digest := d2 }
              | none => Except.ok confsource
            let predicate :=
              match mapGet subs "TRIGGER_BUILD_CONFIG_PATH".toList with
              | some t => predicate.SetEntryPoint t
              | none => predicate
            let confsource :=
              match mapGet subs "REPO_NAME".toList with
              | some repoName =>
                  { confsource with
                      uri := "git+https://source.developers.google.com/p/".toList
                        ++ projectID ++ '/' :: 'r' :: '/' :: repoName }
              | none => confsource
            Except.ok (predicate, confsource)
        | none => Except.ok (predicate, confsource)
      let predicate := pcs.1
      let confsource := pcs.2
      let predicate :=
        if build.serviceAccount ≠ [] then predicate.SetBuilderID build.serviceAccount
        else predicate
      let confsource :=
        if build.buildTriggerId ≠ [] then
          match triggerRepo build.buildTriggerId with
          | .ok repoURL => { confsource with uri := repoURL }
          | .error _ => confsource
        else confsource
      Except.ok (predicate.SetConfigSource confsource)
  | _ => Except.ok predicate

/-- A container-build step with well-formed timing. -/
def gcbStepEx (n : GoStr) : CloudBuildStep :=
  { name := n, args := [],
    timing := some
      { startTime := "2022-01-01T00:00:01Z".toList,
        endTime := "2022-01-01T00:00:02Z".toList } }

/-- The C6 scenario response: SUCCESS, three steps with timing, a
COMMIT_SHA and a REPO_NAME substitution. -/
def gcbBuildEx : CloudBuild :=
  { status := "SUCCESS".toList,
    substitutions := some
      [("COMMIT_SHA".toList, "abc1234".toList), ("REPO_NAME".toList, "repo".toList)],
    steps := [gcbStepEx "s1".toList, gcbStepEx "s2".toList, gcbStepEx "s3".toList],
    serviceAccount := [], buildTriggerId := [] }

/-- The run GetRun starts from for the C6 scenario. -/
def gcbRunStartEx : Run := initialRun "gcb://proj/ba067a55-6090".toList

/-- C6 (evaluating the code at the failing input): refreshing the SUCCESS
run does set `(is_success, is_running) = (true, false)` as claimed, but
building the v1 predicate then panics — the fresh `ResourceDescriptor{}`
carries a nil digest map and the `COMMIT_SHA` branch writes into it — so no
predicate with the claimed builder type and `sha1` digest is produced. -/
theorem gcb_success_predicate_build_panics :
    ((gcbRefreshRun gcbRunStartEx gcbBuildEx).map fun r => (r.isSuccess, r.isRunning))
        = .ok (true, false) ∧
      ((gcbRefreshRun gcbRunStartEx gcbBuildEx).bind fun r =>
          gcbBuildPredicate "proj".toList (fun _ => .error []) r
            (some (.v1 newSLSAV1Predicate)))
        = .error ("panic: assignment to entry in nil map".toList) :=
  ⟨rfl, rfl⟩

/-- C8 counterexample: a workflow run reported complete does not have both
times set.  For `github://org/repo/123` with a `completed`/`success`
response, GetRun yields a run with `is_running = false` whose start and end
times are both still zero, refuting the claim at that input. -/
theorem terminal_run_zero_times_counterexample :
    ¬ (∀ r, ghwGetRun "github://org/repo/123".toList ghRunDataEx = .ok r →
        r.isRunning = false → r.startTime ≠ 0 ∧ r.endTime ≠ 0) := by
  intro h
  exact (h ghwRunEx rfl rfl).1 rfl

/-- C8 amended: neither driver's refresh ever touches the run's own start
and end times — after any refresh, successful or not in status terms, both
fields are exactly what they were before (zero for a run fresh out of
GetRun), not necessarily non-zero. -/
theorem refresh_preserves_run_times :
    (∀ (r : Run) (d : GitHubRunData) (r' : Run),
        ghwRefreshRun r d = .ok r' →
        r'.startTime = r.startTime ∧ r'.endTime = r.endTime) ∧
      ∀ (r : Run) (b : CloudBuild) (r' : Run),
        gcbRefreshRun r b = .ok r' →
        r'.startTime = r.startTime ∧ r'.endTime = r.endTime := by
  constructor
  · intro r d r' h
    rcases hp : parseGitHubURL r.specURL with e | ⟨org, repo, n⟩ <;>
      rw [ghwRefreshRun, hp] at h
    · cases h
    · cases h
      constructor <;> split_ifs <;> rfl
  · intro r b r' h
    rcases hm : gcbMergeSteps r.steps b.steps with e | steps <;>
      rw [gcbRefreshRun] at h <;> rw [hm] at h
    · cases h
    · cases h
      exact ⟨rfl, rfl⟩

/-- A SUCCESS response with no substitutions and no steps. -/
def gcbPlainBuildEx : CloudBuild :=
  { status := "SUCCESS".toList, substitutions := none, steps := [],
    serviceAccount := [], buildTriggerId := [] }

/-- The run gcbRefreshRun produces from `gcbRunStartEx` and
`gcbPlainBuildEx`. -/
def gcbRunDoneEx : Run :=
  { gcbRunStartEx with
    isSuccess := true, isRunning := false,
    systemData := SystemData.gcb gcbPlainBuildEx }

theorem refresh_preserves_run_times_witness :
    (ghwRefreshRun ghwRunEx ghRunDataEx = .ok ghwRunEx ∧
        ghwRunEx.startTime = ghwRunEx.startTime ∧
        ghwRunEx.endTime = ghwRunEx.endTime) ∧
      gcbRefreshRun gcbRunStartEx gcbPlainBuildEx = .ok gcbRunDoneEx ∧
        gcbRunDoneEx.startTime = gcbRunStartEx.startTime ∧
        gcbRunDoneEx.endTime = gcbRunStartEx.endTime :=
  ⟨⟨rfl, refresh_preserves_run_times.1 ghwRunEx ghRunDataEx ghwRunEx rfl⟩,
    rfl,
    refresh_preserves_run_times.2 gcbRunStartEx gcbPlainBuildEx gcbRunDoneEx rfl⟩

/-! ## Snapshot-state validation (watcher.go LoadSnapshots / checkSnapshotMatch) -/

/-- Positional comparison loop of checkSnapshotMatch (watcher.go lines
285-294): an index walks the visited keys, comparing each against the
configured store at the same position. -/
def cmpSpecURLs : List GoStr → List GoStr → Except GoStr Unit
  | [], _ => .ok ()
  | k :: ks, s :: ss =>
      if s ≠ k then .error ("spec url in stored state does not match storage".toList)
      else cmpSpecURLs ks ss
  | _ :: _, [] => .error ("index out of range".toList)

/-- checkSnapshotMatch (watcher.go lines 276-296).  The decoded snapshot
set is a Go map; `for specurl := range snapset` visits its keys in an
unspecified, run-to-run randomized order, so the comparison receives the
visited key sequence `iterKeys` — some permutation of the decoded map's key
set, not the order the keys had in the file. -/
def checkSnapshotMatch (storeURLs : List GoStr) (iterKeys : List GoStr) :
    Except GoStr Unit :=
  if iterKeys.length ≠ storeURLs.length then
    .error ("the number of artifact stores in the watcher does not match the stored set".toList)
  else cmpSpecURLs iterKeys storeURLs

/-- The validation loop of LoadSnapshots (watcher.go lines 262-266): every
stored set must pass checkSnapshotMatch, the first failure aborts. -/
def loadSnapshotsCheck (storeURLs : List GoStr) (sets : List (List GoStr)) :
    Except GoStr Unit :=
  match sets with
  | [] => .ok ()
  | ks :: rest =>
      match checkSnapshotMatch storeURLs ks with
      | .error e => .error e
      | .ok _ => loadSnapshotsCheck storeURLs rest

def specA : GoStr := "gs://bucket-a/".toList

def specB : GoStr := "gs://bucket-b/".toList

/-- C4 (evaluating the code at the failing input): validation compares the
configured stores against an unspecified map-iteration order.  The decoded
key set {A, B} may be visited as [A, B] — validation passes — or as
[B, A] — validation fails — although both sequences are permutations of
the same decoded map.  A saved state whose on-disk key order differs from
the configured stores is therefore not deterministically rejected (and a
matching one is not deterministically accepted): the accept/reject outcome
depends on Go's randomized map iteration, not only on the watcher and the
file. -/
theorem snapshot_match_iteration_order_nondeterminism :
    List.Perm [specA, specB] [specB, specA] ∧
      checkSnapshotMatch [specA, specB] [specA, specB] = .ok () ∧
      checkSnapshotMatch [specA, specB] [specB, specA] =
        .error ("spec url in stored state does not match storage".toList) ∧
      loadSnapshotsCheck [specA, specB] [[specA, specB]] = .ok () ∧
      loadSnapshotsCheck [specA, specB] [[specB, specA]] =
        .error ("spec url in stored state does not match storage".toList) :=
  ⟨List.Perm.swap specB specA [], rfl, rfl, rfl, rfl⟩

/-! ## Watcher artifact collection and the attest flow -/

/-- in-toto statement subject. -/
structure Subject where
  name : GoStr
  digest : List (GoStr × GoStr)
deriving DecidableEq

/-- A configured storage driver, abstracted by its spec URL and the
snapshot its backend yields when read during the attest phase. -/
structure StoreM where
  specURL : GoStr
  content : Snapshot
deriving DecidableEq

/-- Store.ReadArtifacts (store.go lines 84-94): snapshot the store and list
the artifact values. -/
def StoreM.readArtifacts (s : StoreM) : List Artifact := s.content.map Prod.snd

/-- Watcher state threaded through the attest flow. -/
structure WatcherM where
  artifactStores : List StoreM
  snapshots : List (List (GoStr × Snapshot))
  draftSubjects : List Subject

/-- Watcher.LoadSnapshots (watcher.go lines 248-271): validate every
decoded set against the configured stores, then install the sets; the
per-set key-visit orders of the Go map ranging are supplied explicitly. -/
def WatcherM.loadSnapshots (w : WatcherM) (sets : List (List (GoStr × Snapshot)))
    (iterOrders : List (List GoStr)) : Except GoStr WatcherM :=
  match loadSnapshotsCheck (w.artifactStores.map StoreM.specURL) iterOrders with
  | .error e => .error e
  | .ok _ => .ok { w with snapshots := sets }

/-- Watcher.CollectArtifacts (watcher.go lines 187-205): overwrite the
run's artifacts with everything read from the configured stores plus the
builder's native stores, in declaration order. -/
def collectArtifacts (w : WatcherM) (native : List StoreM) (r : Run) : Run :=
  { r with artifacts := (w.artifactStores ++ native).flatMap StoreM.readArtifacts }

/-- Subject binding inside Watcher.AttestRun (watcher.go lines 160-168):
one subject per run artifact (name = path, digest = checksum copy),
appended after the subjects already on the draft attestation. -/
def attestRunSubjects (w : WatcherM) (r : Run) : List Subject :=
  w.draftSubjects ++ r.artifacts.map fun a => { name := a.path, digest := a.checksum }

/-- Tail of the attest phase (internal/cmd/attest.go): load the saved
pre-build snapshot sets (base64 payloads land in the same state file),
collect artifacts, bind subjects.  The installed snapshots sit in the
watcher; AttestRun never reads them. -/
def attestFlowSubjects (w : WatcherM) (sets : List (List (GoStr × Snapshot)))
    (iterOrders : List (List GoStr)) (native : List StoreM) (r : Run) :
    Except GoStr (List Subject) :=
  match w.loadSnapshots sets iterOrders with
  | .error e => .error e
  | .ok w' => .ok (attestRunSubjects w' (collectArtifacts w' native r))

/-- The subject the attest flow emits for the unchanged artifact. -/
def subjEx : Subject :=
  { name := "test.txt".toList, digest := [("SHA256".toList, "c71d".toList)] }

/-- The single configured store of the C2 counterexample; its current
content coincides with the saved pre-build snapshot `preSnapEx`. -/
def storeAEx : StoreM := { specURL := specA, content := preSnapEx }

/-- Watcher configured with that store, no draft subjects. -/
def watcherEx : WatcherM :=
  { artifactStores := [storeAEx], snapshots := [], draftSubjects := [] }

/-- C2 counterexample: with the pre-build snapshot set S equal to the
store's unchanged current content, `Δ(S, post-snapshot)` is empty, yet the
emitted subjects contain the unchanged artifact — the attest phase binds
every collected artifact and never applies the delta to the loaded
snapshots. -/
theorem attest_subjects_not_delta_counterexample :
    attestFlowSubjects watcherEx [[(specA, preSnapEx)]] [[specA]] []
        (initialRun "github://org/repo/123".toList) = .ok [subjEx] ∧
      (Snapshot.Delta preSnapEx storeAEx.content).map
          (fun a => ({ name := a.path, digest := a.checksum } : Subject)) = [] ∧
      ([subjEx] : List Subject) ≠ [] :=
  ⟨rfl, rfl, by decide⟩

/-- C2 amended: the final statement's subjects are the draft's subjects
followed by one subject per artifact read from the configured stores and
the builder's native stores, in that order; the loaded pre-build snapshot
set S is installed in the watcher but never consulted — no delta against S
is applied — so any two snapshot states that pass validation produce
identical subjects. -/
theorem attest_subjects_ignore_loaded_snapshots (w : WatcherM)
    (sets sets' : List (List (GoStr × Snapshot))) (iter iter' : List (List GoStr))
    (native : List StoreM) (r : Run) (out : List Subject)
    (h : attestFlowSubjects w sets iter native r = .ok out) :
    out = w.draftSubjects ++
        ((w.artifactStores ++ native).flatMap StoreM.readArtifacts).map
          (fun a => ({ name := a.path, digest := a.checksum } : Subject)) ∧
      ∀ out', attestFlowSubjects w sets' iter' native r = .ok out' → out' = out := by
  rcases hc : loadSnapshotsCheck (w.artifactStores.map StoreM.specURL) iter with e | u <;>
    rw [attestFlowSubjects, WatcherM.loadSnapshots, hc] at h
  · cases h
  · cases h
    constructor
    · rfl
    · intro out' h'
      rcases hc' : loadSnapshotsCheck (w.artifactStores.map StoreM.specURL) iter' with e' | u' <;>
        rw [attestFlowSubjects, WatcherM.loadSnapshots, hc'] at h'
      · cases h'
      · cases h'
        rfl

theorem attest_subjects_ignore_loaded_snapshots_witness :
    ([subjEx] : List Subject) =
        watcherEx.draftSubjects ++
          ((watcherEx.artifactStores ++ ([] : List StoreM)).flatMap
              StoreM.readArtifacts).map
            (fun a => ({ name := a.path, digest := a.checksum } : Subject)) ∧
      ∀ out', attestFlowSubjects watcherEx [] [] []
          (initialRun "github://org/repo/123".toList) = .ok out' →
        out' = [subjEx] :=
  attest_subjects_ignore_loaded_snapshots watcherEx [[(specA, preSnapEx)]] [] [[specA]] []
    [] (initialRun "github://org/repo/123".toList) [subjEx] rfl

end Tejolote
